import Mathlib

/-!
Verification development for the `heic-ocr` batch OCR pipeline.

The Python sources are shallowly embedded as Lean definitions:
text is `List Char`, rationals stand in for Python floats, Python
exceptions become `Except`, and the filesystem effects of image
preparation become explicit state (`PrepSt`).  Character classes and
case folding are modelled at the ASCII level (all inputs considered
in the theorems are ASCII, and every pattern in the source is ASCII).
-/

set_option maxRecDepth 4000
set_option linter.unusedVariables false

/-- Text is modelled as a list of characters (a Python `str`). -/
abbrev Str := List Char

/-- Python whitespace used by `str.strip()` and `str.split()` (ASCII part). -/
def isStripSpace (c : Char) : Bool :=
  c == ' ' || c == '\t' || c == '\n' || c == '\r' || c == '\x0b' || c == '\x0c'

/-- Strip characters satisfying `bad` from both ends (Python `str.strip(chars)`). -/
def stripChars (s : Str) (bad : Char → Bool) : Str :=
  ((s.dropWhile bad).reverse.dropWhile bad).reverse

/-- Python `str.strip()` with no arguments: strip whitespace from both ends. -/
def stripWs (s : Str) : Str :=
  stripChars s isStripSpace

/-- Accumulator loop of `splitWsWords`; `cur` is the current word, reversed. -/
def splitWsAux (cur : Str) : Str → List Str
  | [] => if cur.isEmpty then [] else [cur.reverse]
  | c :: rest =>
    if isStripSpace c then
      if cur.isEmpty then splitWsAux [] rest
      else cur.reverse :: splitWsAux [] rest
    else splitWsAux (c :: cur) rest

/-- Python `str.split()` with no arguments: split on whitespace runs, dropping empties. -/
def splitWsWords (s : Str) : List Str := splitWsAux [] s

/-- Python `str.capitalize()`: first character upper-cased, the rest lower-cased. -/
def capitalizeWord (w : Str) : Str :=
  match w with
  | [] => []
  | c :: rest => c.toUpper :: rest.map Char.toLower

/-- Join a list of words with single spaces (Python `" ".join(...)`). -/
def joinSpace : List Str → Str
  | [] => []
  | [w] => w
  | w :: rest => w ++ ' ' :: joinSpace rest

/-- Python `str.lower()` (ASCII model). -/
def lowerStr (s : Str) : Str := s.map Char.toLower

/-- Containment of `needle` as a contiguous substring of `hay` (Python `in`). -/
def strContains (hay needle : Str) : Bool :=
  match hay with
  | [] => needle.isEmpty
  | _ :: rest => needle.isPrefixOf hay || strContains rest needle

/-! ## A small regular-expression engine

The engine implements exactly the `re` features the source patterns use:
character classes, concatenation, alternation (leftmost preference),
greedy star, capturing groups, and the word boundary `\b`.  Matching is
backtracking continuation-passing, reproducing CPython's leftmost /
greedy / first-alternative match order.  The source applies every
pattern with `re.IGNORECASE`, which is modelled by case-folding literal
characters in `reLit1`. -/

inductive RE where
  | eps : RE
  | cls (f : Char → Bool) : RE
  | seq (a b : RE) : RE
  | alt (a b : RE) : RE
  | star (a : RE) : RE
  | group (idx : Nat) (a : RE) : RE
  | wordB : RE

/-- Captured groups of a match: group index paired with captured text. -/
abbrev Caps := List (Nat × Str)

/-- Record a capture for group `i`, overwriting an earlier capture of the same group. -/
def setCap (caps : Caps) (i : Nat) (v : Str) : Caps :=
  if caps.any (fun c => c.1 == i) then
    caps.map (fun c => if c.1 == i then (i, v) else c)
  else caps ++ [(i, v)]

/-- Look up the capture of group `i`. -/
def getCap (caps : Caps) (i : Nat) : Option Str :=
  (caps.find? (fun c => c.1 == i)).map (fun c => c.2)

/-- Python `m.lastindex or 0`: the highest-numbered group that participated
in the match (for the source's patterns the groups are nested left to
right, so the highest participating index is the last matched group). -/
def maxCapIdx (caps : Caps) : Nat :=
  caps.foldl (fun m c => if m < c.1 then c.1 else m) 0

/-- Python `\w` (ASCII model). -/
def isWordChar (c : Char) : Bool := c.isAlphanum || c == '_'

/-- Python `\d` (ASCII model). -/
def isDigitChar (c : Char) : Bool := c.isDigit

/-- Python `\s` (ASCII model). -/
def isSpaceChar (c : Char) : Bool := isStripSpace c

/-- Word boundary test for `\b`: previous and next characters disagree on wordness. -/
def atWordBoundary (prev : Option Char) (s : Str) : Bool :=
  let pw := match prev with | some c => isWordChar c | none => false
  let nw := match s with | c :: _ => isWordChar c | [] => false
  pw != nw

/-- One level of the backtracking matcher, structurally recursive on the
pattern.  `prev` is the character just before the current position (for
`\b`), `caps` the captures recorded on the current backtracking path,
`k` the success continuation, and `next` the matcher used to re-enter a
star after one iteration (stars must consume input to iterate, which is
what makes the fuel in `mat` sufficient). -/
def matR {α : Type}
    (next : RE → Option Char → Str → Caps →
      (Option Char → Str → Caps → Option α) → Option α) :
    RE → Option Char → Str → Caps →
      (Option Char → Str → Caps → Option α) → Option α
  | RE.eps, prev, s, caps, k => k prev s caps
  | RE.cls f, _, s, caps, k =>
    match s with
    | [] => none
    | c :: rest => if f c then k (some c) rest caps else none
  | RE.seq a b, prev, s, caps, k =>
    matR next a prev s caps (fun p2 s2 c2 => matR next b p2 s2 c2 k)
  | RE.alt a b, prev, s, caps, k =>
    match matR next a prev s caps k with
    | some res => some res
    | none => matR next b prev s caps k
  | RE.star a, prev, s, caps, k =>
    match matR next a prev s caps (fun p2 s2 c2 =>
        if s2.length < s.length then next (RE.star a) p2 s2 c2 k else none) with
    | some res => some res
    | none => k prev s caps
  | RE.group i a, prev, s, caps, k =>
    matR next a prev s caps
      (fun p2 s2 c2 => k p2 s2 (setCap c2 i (s.take (s.length - s2.length))))
  | RE.wordB, prev, s, caps, k => if atWordBoundary prev s then k prev s caps else none

/-- Backtracking matcher.  `fuel` bounds the number of star iterations
along a backtracking path; every star iteration consumes at least one
character, so `s.length + 1` fuel at entry makes exhaustion unreachable. -/
def mat {α : Type} : Nat → RE → Option Char → Str → Caps →
    (Option Char → Str → Caps → Option α) → Option α
  | 0, _, prev, s, caps, k => k prev s caps
  | fuel + 1, r, prev, s, caps, k => matR (mat fuel) r prev s caps k

/-- Python `re.search`: try a match at each start position, left to right;
returns the captures (group 0 is the whole match) and the text remaining
after the match. -/
def searchFrom (r : RE) (prev : Option Char) (s : Str) : Option (Caps × Str) :=
  match mat (s.length + 1) (RE.group 0 r) prev s []
      (fun _ s2 caps => some (caps, s2)) with
  | some res => some res
  | none =>
    match s with
    | [] => none
    | c :: rest => searchFrom r (some c) rest

/-- Python `re.search` from the start of the text. -/
def reSearch (r : RE) (s : Str) : Option (Caps × Str) := searchFrom r none s

/-- Fuelled loop of `findall`; each step either consumes a match or
advances one position, so `s.length + 1` fuel suffices. -/
def findallAux (r : RE) : Nat → Option Char → Str → List Str
  | 0, _, _ => []
  | fuel + 1, prev, s =>
    match mat (s.length + 1) (RE.group 0 r) prev s []
        (fun _ s2 caps => some (caps, s2)) with
    | some (caps, s2) =>
      if s2.length < s.length then
        (getCap caps 1).getD [] ::
          findallAux r fuel ((s.take (s.length - s2.length)).getLast?) s2
      else
        match s with
        | [] => []
        | c :: rest => findallAux r fuel (some c) rest
    | none =>
      match s with
      | [] => []
      | c :: rest => findallAux r fuel (some c) rest

/-- Python `re.findall` for a single-group pattern: non-overlapping matches
scanned left to right, collecting group 1 of each. -/
def findallG1 (r : RE) (prev : Option Char) (s : Str) : List Str :=
  findallAux r (s.length + 1) prev s

/-! ### Pattern constructors mirroring the `re` syntax used in `extract.py` -/

/-- One literal pattern character, matched case-insensitively (`re.IGNORECASE`). -/
def reLit1 (c : Char) : RE := RE.cls (fun x => x.toLower == c)

/-- A literal pattern string. -/
def reStr (w : String) : RE :=
  w.data.foldr (fun c r => RE.seq (reLit1 c) r) RE.eps

/-- Greedy `?`. -/
def reOpt (a : RE) : RE := RE.alt a RE.eps

/-- Greedy `+`. -/
def rePlus (a : RE) : RE := RE.seq a (RE.star a)

/-- Exactly `n` repetitions. -/
def reRep (a : RE) : Nat → RE
  | 0 => RE.eps
  | n + 1 => RE.seq a (reRep a n)

/-- At most `n` repetitions, greedy (longest first, as CPython tries `{m,n}`). -/
def reUpTo (a : RE) : Nat → RE
  | 0 => RE.eps
  | n + 1 => reOpt (RE.seq a (reUpTo a n))

/-- Counted repetition `{m,n}`. -/
def reRange (a : RE) (m n : Nat) : RE := RE.seq (reRep a m) (reUpTo a (n - m))

/-- Open-ended repetition `{m,}`. -/
def reAtLeast (a : RE) (m : Nat) : RE := RE.seq (reRep a m) (RE.star a)

/-- Greedy `\s*`. -/
def reSstar : RE := RE.star (RE.cls isSpaceChar)

/-! ## src/extract.py -/

/-- Manufacturer keyword list, transcribed from `MANUFACTURER_KEYWORDS`. -/
def MANUFACTURER_KEYWORDS : List Str :=
  ["rheem".data,
   "ruud".data,
   "ao smith".data,
   "a. o. smith".data,
   "bradford white".data,
   "state water heaters".data,
   "state industries".data,
   "ge".data,
   "general electric".data,
   "whirlpool".data,
   "kenmore".data,
   "american water heater".data,
   "navien".data,
   "noritz".data,
   "rinnai".data,
   "bosch".data]

/-- Character class of model tokens (word characters, dash, slash, dot). -/
def isModelTokChar (c : Char) : Bool :=
  isWordChar c || c == '-' || c == '/' || c == '.'

/-- Character class of serial tokens (word characters, dash, slash). -/
def isSerialTokChar (c : Char) : Bool :=
  isWordChar c || c == '-' || c == '/'

/-- Character class of the date capture (word characters, dash, slash, comma, dot, space). -/
def isDateCapChar (c : Char) : Bool :=
  isWordChar c || c == '-' || c == '/' || c == ',' || c == '.' || c == ' '

/-- Character class of colon or dash. -/
def isColonDash (c : Char) : Bool := c == ':' || c == '-'

/-- Character class of the date separators dash and slash. -/
def isDashSlash (c : Char) : Bool := c == '-' || c == '/'

/-- Pattern `model\s*(no\.?|number|#)?\s*[:]?\s*(T+)` where `T` is the model token class. -/
def modelPat1 : RE :=
  RE.seq (reStr "model") (RE.seq reSstar (RE.seq
    (reOpt (RE.group 1 (RE.alt (RE.seq (reStr "no") (reOpt (reLit1 '.')))
      (RE.alt (reStr "number") (reStr "#")))))
    (RE.seq reSstar (RE.seq (reOpt (reLit1 ':')) (RE.seq reSstar
      (RE.group 2 (rePlus (RE.cls isModelTokChar))))))))

/-- Pattern `m/?n\.?\s*[:]?\s*(T+)` where `T` is the model token class. -/
def modelPat2 : RE :=
  RE.seq (reLit1 'm') (RE.seq (reOpt (reLit1 '/')) (RE.seq (reLit1 'n')
    (RE.seq (reOpt (reLit1 '.')) (RE.seq reSstar (RE.seq (reOpt (reLit1 ':'))
      (RE.seq reSstar (RE.group 1 (rePlus (RE.cls isModelTokChar)))))))))

/-- Pattern `mdl\.?\s*[:]?\s*(T+)` where `T` is the model token class. -/
def modelPat3 : RE :=
  RE.seq (reStr "mdl") (RE.seq (reOpt (reLit1 '.')) (RE.seq reSstar
    (RE.seq (reOpt (reLit1 ':')) (RE.seq reSstar
      (RE.group 1 (rePlus (RE.cls isModelTokChar)))))))

/-- List `MODEL_HINTS`. -/
def MODEL_HINTS : List RE := [modelPat1, modelPat2, modelPat3]

/-- Pattern `serial\s*(no\.?|number|#)?\s*[:]?\s*(S+)` where `S` is the serial token class. -/
def serialPat1 : RE :=
  RE.seq (reStr "serial") (RE.seq reSstar (RE.seq
    (reOpt (RE.group 1 (RE.alt (RE.seq (reStr "no") (reOpt (reLit1 '.')))
      (RE.alt (reStr "number") (reStr "#")))))
    (RE.seq reSstar (RE.seq (reOpt (reLit1 ':')) (RE.seq reSstar
      (RE.group 2 (rePlus (RE.cls isSerialTokChar))))))))

/-- Pattern `s/?n\.?\s*[:]?\s*(S+)` where `S` is the serial token class. -/
def serialPat2 : RE :=
  RE.seq (reLit1 's') (RE.seq (reOpt (reLit1 '/')) (RE.seq (reLit1 'n')
    (RE.seq (reOpt (reLit1 '.')) (RE.seq reSstar (RE.seq (reOpt (reLit1 ':'))
      (RE.seq reSstar (RE.group 1 (rePlus (RE.cls isSerialTokChar)))))))))

/-- List `SERIAL_HINTS`. -/
def SERIAL_HINTS : List RE := [serialPat1, serialPat2]

/-- Pattern `(\d{2,3})\s*(gal|gallon|gallons)\b`. -/
def capacityPat1 : RE :=
  RE.seq (RE.group 1 (reRange (RE.cls isDigitChar) 2 3)) (RE.seq reSstar
    (RE.seq (RE.group 2 (RE.alt (reStr "gal") (RE.alt (reStr "gallon") (reStr "gallons"))))
      RE.wordB))

/-- Pattern `(\d{2,3})\s*(l|litre|litres|liter|liters)\b`. -/
def capacityPat2 : RE :=
  RE.seq (RE.group 1 (reRange (RE.cls isDigitChar) 2 3)) (RE.seq reSstar
    (RE.seq (RE.group 2 (RE.alt (reStr "l") (RE.alt (reStr "litre")
      (RE.alt (reStr "litres") (RE.alt (reStr "liter") (reStr "liters"))))))
      RE.wordB))

/-- List `CAPACITY_HINTS`. -/
def CAPACITY_HINTS : List RE := [capacityPat1, capacityPat2]

/-- Pattern `(manufactured|mfg\.?\s*date|date\s*of\s*manufacture|dom)`
followed by `\s*`, an optional colon or dash, `\s*`, and a capture of
six or more date-capture-class characters. -/
def dateLabelPat : RE :=
  RE.seq (RE.group 1 (RE.alt (reStr "manufactured")
    (RE.alt (RE.seq (reStr "mfg") (RE.seq (reOpt (reLit1 '.'))
      (RE.seq reSstar (reStr "date"))))
    (RE.alt (RE.seq (reStr "date") (RE.seq reSstar (RE.seq (reStr "of")
      (RE.seq reSstar (reStr "manufacture")))))
      (reStr "dom")))))
  (RE.seq reSstar (RE.seq (reOpt (RE.cls isColonDash)) (RE.seq reSstar
    (RE.group 2 (reAtLeast (RE.cls isDateCapChar) 6)))))

/-- List `DATE_HINTS`. -/
def DATE_HINTS : List RE := [dateLabelPat]

/-- First generic date pattern of `parse_date_of_manufacture`:
word boundary, then digits 1-2, separator, digits 1-2, separator,
digits 2-4, word boundary (all in group 1). -/
def genericDatePat1 : RE :=
  RE.seq RE.wordB (RE.seq (RE.group 1
    (RE.seq (reRange (RE.cls isDigitChar) 1 2) (RE.seq (RE.cls isDashSlash)
      (RE.seq (reRange (RE.cls isDigitChar) 1 2) (RE.seq (RE.cls isDashSlash)
        (reRange (RE.cls isDigitChar) 2 4))))))
    RE.wordB)

/-- Second generic date pattern of `parse_date_of_manufacture`:
word boundary, then 4 digits, separator, digits 1-2, separator,
digits 1-2, word boundary (all in group 1). -/
def genericDatePat2 : RE :=
  RE.seq RE.wordB (RE.seq (RE.group 1
    (RE.seq (reRep (RE.cls isDigitChar) 4) (RE.seq (RE.cls isDashSlash)
      (RE.seq (reRange (RE.cls isDigitChar) 1 2) (RE.seq (RE.cls isDashSlash)
        (reRange (RE.cls isDigitChar) 1 2))))))
    RE.wordB)

/-- Characters collapsed by `normalize_whitespace` (`[\t\x0b\x0c\r]+`). -/
def isNormWs (c : Char) : Bool :=
  c == '\t' || c == '\x0b' || c == '\x0c' || c == '\r'

/-- Loop of `normalize_whitespace`; `inRun` records whether the previous
character belonged to a run being collapsed. -/
def normWsAux (inRun : Bool) : Str → Str
  | [] => []
  | c :: rest =>
    if isNormWs c then
      if inRun then normWsAux true rest else ' ' :: normWsAux true rest
    else c :: normWsAux false rest

/-- Source `normalize_whitespace`: replace every run of the characters
above with a single space. -/
def normalize_whitespace (s : Str) : Str := normWsAux false s

/-- Source `find_first_group` with the default `group_index = -1`: first
pattern that matches wins; its last matched group (`m.lastindex or 0`) is
returned, whitespace-stripped. -/
def find_first_group (patterns : List RE) (text : Str) : Option Str :=
  patterns.findSome? (fun pat =>
    match reSearch pat text with
    | some (caps, _) => (getCap caps (maxCapIdx caps)).map stripWs
    | none => none)

/-- Source `detect_manufacturer`: first keyword contained in the lowered
text, title-cased token by token. -/
def detect_manufacturer (text : Str) : Option Str :=
  (MANUFACTURER_KEYWORDS.find? (fun brand => strContains (lowerStr text) brand)).map
    (fun brand => joinSpace ((splitWsWords brand).map capitalizeWord))

/-- Source `parse_capacity`. -/
def parse_capacity (text : Str) : Option Str :=
  CAPACITY_HINTS.findSome? (fun pat =>
    match reSearch pat text with
    | some (caps, _) =>
      let number := (getCap caps 1).getD []
      let unit := lowerStr ((getCap caps 2).getD [])
      if ("gal".data).isPrefixOf unit then some (number ++ (" gal".data))
      else if ("l".data).isPrefixOf unit then some (number ++ (" L".data))
      else none
    | none => none)

/-- Parse a run of decimal digits as a number. -/
def digitsToNat (s : Str) : Nat :=
  s.foldl (fun n c => n * 10 + (c.toNat - '0'.toNat)) 0

/-- Split a candidate date on `-` and `/` separators. -/
def splitDate (s : Str) : List Str :=
  match s with
  | [] => [[]]
  | c :: rest =>
    if isDashSlash c then [] :: splitDate rest
    else
      match splitDate rest with
      | [] => [[c]]
      | w :: ws => (c :: w) :: ws

/-- Left-pad a digit string with zeros to width `k`. -/
def padZeros (s : Str) (k : Nat) : Str :=
  List.replicate (k - s.length) '0' ++ s

/-- Render a natural number, zero-padded to width `k`. -/
def natToPadded (n k : Nat) : Str := padZeros (toString n).data k

/-- Modelled from the spec: the third-party `dateutil` fuzzy date parser
(`date_parser.parse(cand, fuzzy=True)` in `parse_date_of_manufacture`)
has no source in this repository.  Per the spec, each candidate is a
numeric `D/M/Y` or `Y/M/D` style substring; a candidate that parses to a
calendar date is rendered in ISO 8601 form.  The model parses the three
numeric components (month first, as in dateutil's default locale, with
day and month swapped when the first component exceeds 12, and two-digit
years expanded to 19xx/20xx). -/
def fuzzyDateISO (cand : Str) : Option Str :=
  match (splitDate (stripWs cand)).map (fun w => (w, digitsToNat w)) with
  | [(a, na), (b, nb), (c, nc)] =>
    if a.isEmpty || b.isEmpty || c.isEmpty then none
    else if ! (a.all isDigitChar && b.all isDigitChar && c.all isDigitChar) then none
    else if a.length == 4 then
      -- Y/M/D form
      if 1 ≤ nb && nb ≤ 12 && 1 ≤ nc && nc ≤ 31 then
        some (natToPadded na 4 ++ '-' :: natToPadded nb 2 ++ '-' :: natToPadded nc 2)
      else none
    else
      -- American M/D/Y, with dateutil's day/month swap when the first
      -- component cannot be a month
      let y := if c.length ≤ 2 then (if nc < 50 then 2000 + nc else 1900 + nc) else nc
      let m := if na ≤ 12 then na else nb
      let d := if na ≤ 12 then nb else na
      if 1 ≤ m && m ≤ 12 && 1 ≤ d && d ≤ 31 then
        some (natToPadded y 4 ++ '-' :: natToPadded m 2 ++ '-' :: natToPadded d 2)
      else none
  | _ => none

/-- Source `parse_date_of_manufacture`: the labelled capture, then generic
date-like substrings, each fed to the fuzzy date parser; first success
wins. -/
def parse_date_of_manufacture (text : Str) : Option Str :=
  let label_capture := find_first_group DATE_HINTS text
  let candidates :=
    (match label_capture with | some c => [c] | none => []) ++
    findallG1 genericDatePat1 none text ++
    findallG1 genericDatePat2 none text
  candidates.findSome? fuzzyDateISO

/-- Characters stripped by `post_clean` (`value.strip("-:;,.# ")`). -/
def isPunctStrip (c : Char) : Bool :=
  c == '-' || c == ':' || c == ';' || c == ',' || c == '.' || c == '#' || c == ' '

/-- Source `post_clean`: falsy values become the empty string; otherwise
strip whitespace, strip the punctuation set, and truncate to 120
characters. -/
def post_clean (value : Option Str) : Str :=
  match value with
  | none => []
  | some s =>
    if s.isEmpty then []
    else
      let cleaned := stripChars (stripWs s) isPunctStrip
      if 120 < cleaned.length then cleaned.take 120 else cleaned

/-- Source `parse_fields`: normalize whitespace, run every field
heuristic, clean each result.  Python dict literals preserve insertion
order, modelled as an association list. -/
def parse_fields (ocr_text : Str) : List (String × Str) :=
  let text := normalize_whitespace ocr_text
  [("manufacturer", post_clean (detect_manufacturer text)),
   ("model_number", post_clean (find_first_group MODEL_HINTS text)),
   ("serial_number", post_clean (find_first_group SERIAL_HINTS text)),
   ("capacity", post_clean (parse_capacity text)),
   ("date_of_manufacture", post_clean (parse_date_of_manufacture text))]

/-! ## src/io_utils.py -/

/-- An extracted record: a Python dict with string keys and string values,
modelled as an association list in insertion order. -/
abbrev Rec := List (String × Str)

/-- Python `d[k] = v` on a dict: update the value in place if the key is
present (keeping its position), else append the pair. -/
def dictSet (d : Rec) (k : String) (v : Str) : Rec :=
  if d.any (fun kv => kv.1 == k) then
    d.map (fun kv => if kv.1 == k then (k, v) else kv)
  else d ++ [(k, v)]

/-- Preferred CSV column order from `infer_fieldnames`. -/
def preferredFieldnames : List String :=
  ["source_file",
   "manufacturer",
   "model_number",
   "serial_number",
   "capacity",
   "date_of_manufacture",
   "ocr_confidence",
   "rotation_deg"]

/-- Source `infer_fieldnames`: start from the preferred columns, then
append every not-yet-seen key of every record, in record order.  (The
source tracks seen keys in a companion set; list membership is the same
test since the list never acquires duplicates.) -/
def infer_fieldnames (records : List Rec) : List String :=
  records.foldl
    (fun fields rec =>
      rec.foldl (fun fs kv => if kv.1 ∈ fs then fs else fs ++ [kv.1]) fields)
    preferredFieldnames

/-- One CSV cell: `csv.DictWriter` writes `rowdict.get(key, restval)` and
the default `restval=None` serializes as an empty cell. -/
def csvCell (rec : Rec) (k : String) : Str := (rec.lookup k).getD []

/-- Source `write_csv_records`, modelled at the level of the written
table: the header row of fieldnames followed by one row of cells per
record.  (Byte-level CSV quoting is outside the model; reading the file
back recovers exactly this table.) -/
def write_csv_records (records : List Rec) : List String × List (List Str) :=
  let fieldnames := infer_fieldnames records
  (fieldnames, records.map (fun rec => fieldnames.map (csvCell rec)))

/-! ## src/heic_utils.py -/

/-- An input file as `prepare_images` sees it: its path string (used for
the sorted traversal), stem and suffix (`path.stem` / `path.suffix`, with
`path.name = stem ++ suffix`), whether it is a regular file, and oracles
telling whether a HEIC conversion or a plain copy of this file would
succeed (the outcomes of the `try` blocks). -/
structure SrcFile where
  path : Str
  stem : Str
  suffix : Str
  isFile : Bool
  convertOk : Bool
  copyOk : Bool
deriving DecidableEq

/-- Extension set `IMAGE_EXTENSIONS`. -/
def IMAGE_EXTENSIONS : List Str :=
  [".heic".data, ".heif".data, ".jpg".data, ".jpeg".data, ".png".data,
   ".bmp".data, ".tif".data, ".tiff".data]

/-- Source `is_image_file` (`path.suffix.lower() in IMAGE_EXTENSIONS`). -/
def is_image_file (f : SrcFile) : Bool :=
  IMAGE_EXTENSIONS.contains (lowerStr f.suffix)

/-- The name `prepare_images` gives the staged copy of `f` inside
`converted_dir`: converted HEIC output is keyed by stem, other images
keep their file name.  (The constant `converted_dir` prefix is elided.) -/
def outName (f : SrcFile) : Str :=
  if lowerStr f.suffix = ".heic".data ∨ lowerStr f.suffix = ".heif".data then
    f.stem ++ ".png".data
  else f.stem ++ f.suffix

/-- State of a `prepare_images` run: the list of OCR-ready paths built so
far, the files existing in `converted_dir`, and the conversions performed
(source paths, in order). -/
structure PrepSt where
  ready : List Str
  existing : List Str
  conversions : List Str
deriving DecidableEq

/-- One iteration of the `prepare_images` loop body. -/
def prepStep (st : PrepSt) (f : SrcFile) : PrepSt :=
  if ¬ (f.isFile = true) ∨ ¬ (is_image_file f = true) then st
  else if lowerStr f.suffix = ".heic".data ∨ lowerStr f.suffix = ".heif".data then
    if outName f ∈ st.existing then { st with ready := st.ready ++ [outName f] }
    else if f.convertOk then
      { ready := st.ready ++ [outName f],
        existing := st.existing ++ [outName f],
        conversions := st.conversions ++ [f.path] }
    else st
  else
    if outName f ∈ st.existing then { st with ready := st.ready ++ [outName f] }
    else if f.copyOk then
      { ready := st.ready ++ [outName f],
        existing := st.existing ++ [outName f],
        conversions := st.conversions }
    else st

/-- Sorted traversal order of `sorted(input_dir.rglob("*"))`, comparing
path strings. -/
def sortFiles (files : List SrcFile) : List SrcFile :=
  files.insertionSort (fun a b => a.path ≤ b.path)

/-- Source `prepare_images`: walk the files in sorted order, converting
or copying into `converted_dir` (whose prior contents are `existing0`). -/
def prepare_images (files : List SrcFile) (existing0 : List Str) : PrepSt :=
  (sortFiles files).foldl prepStep ⟨[], existing0, []⟩

/-! ## src/ocr.py and src/main.py -/

/-- The environment the pipeline runs in: reading an image file can raise
(`read_image_bgr` raises `RuntimeError` when decoding fails), while
preprocessing and the OCR engine are opaque total functions.  Images are
identified abstractly by strings. -/
structure OCRContext where
  readImage : Str → Except String Str
  preprocessForOcr : Str → Nat → Str
  engineRun : Str → Str × ℚ

/-- Rotation candidates of `choose_best_ocr_result`. -/
def rotation_candidates (mode : String) : List Nat :=
  if mode = "auto" then [0, 90, 180, 270] else [0]

/-- One inner-loop iteration of `choose_best_ocr_result`: preprocess at
the rotation, run the engine, keep the result if its confidence strictly
beats the best so far. -/
def ocrStep (ctx : OCRContext) (img : Str) (best : Str × ℚ × Nat) (rot : Nat) :
    Str × ℚ × Nat :=
  let processed := ctx.preprocessForOcr img rot
  let res := ctx.engineRun processed
  if best.2.1 < res.2 then (res.1, res.2, rot) else best

/-- The loop of `choose_best_ocr_result` over image paths; a failing image
read propagates as an exception (the saving of preprocessed images is a
side effect outside the model). -/
def chooseBestAux (ctx : OCRContext) (mode : String) :
    List Str → (Str × ℚ × Nat) → Except String (Str × ℚ × Nat)
  | [], best => Except.ok best
  | p :: rest, best =>
    match ctx.readImage p with
    | Except.error e => Except.error e
    | Except.ok img =>
      chooseBestAux ctx mode rest ((rotation_candidates mode).foldl (ocrStep ctx img) best)

/-- Source `choose_best_ocr_result`: best (text, confidence, rotation)
across all image paths and candidate rotations, starting from the
sentinel `("", -1.0, 0)`. -/
def choose_best_ocr_result (ctx : OCRContext) (paths : List Str) (mode : String) :
    Except String (Str × ℚ × Nat) :=
  chooseBestAux ctx mode paths ([], -1, 0)

/-- Python `f"{conf:.3f}"`: fixed-point rendering with three decimals,
rounding half to even (the model works on the exact rational). -/
def formatConf3 (q : ℚ) : Str :=
  let scaled : ℚ := q * 1000
  let fl : ℤ := ⌊scaled⌋
  let frac : ℚ := scaled - fl
  let n : ℤ :=
    if frac < 1/2 then fl
    else if 1/2 < frac then fl + 1
    else if fl % 2 = 0 then fl else fl + 1
  let sign : Str := if n < 0 then ['-'] else []
  let m : Nat := n.natAbs
  sign ++ (toString (m / 1000)).data ++ '.' :: natToPadded (m % 1000) 3

/-- The per-image record built by the `run_pipeline` loop body. -/
def buildRecord (p : Str) (text : Str) (conf : ℚ) (rot : Nat) : Rec :=
  let fields := parse_fields text
  let fields := dictSet fields "source_file" p
  let fields := dictSet fields "ocr_confidence"
    (if 0 ≤ conf then formatConf3 conf else [])
  dictSet fields "rotation_deg" (toString rot).data

/-- The `for img_path in ready_images` loop of `run_pipeline`: the loop
body has no exception handler, so an error from
`choose_best_ocr_result` aborts the whole run.  (Writing the raw OCR
text is a side effect outside the model.) -/
def processImages (ctx : OCRContext) (mode : String) :
    List Str → List Rec → Except String (List Rec)
  | [], acc => Except.ok acc
  | p :: rest, acc =>
    match choose_best_ocr_result ctx [p] mode with
    | Except.error e => Except.error e
    | Except.ok (text, conf, rot) =>
      processImages ctx mode rest (acc ++ [buildRecord p text conf rot])

/-- Source `run_pipeline`, modelled from image preparation to the record
list (directory creation, the progress bar and the CSV/JSON writes are
side effects; an empty ready list returns early with no records). -/
def run_pipeline (ctx : OCRContext) (files : List SrcFile) (existing0 : List Str)
    (mode : String) : Except String (List Rec) :=
  processImages ctx mode (prepare_images files existing0).ready []

/-- Engine choices, the `value`s of `OCREngineType`. -/
def ENGINE_CHOICES : List String := ["easyocr", "tesseract"]

/-- Rotation-mode choices of the `--rotation` argument. -/
def ROTATION_CHOICES : List String := ["auto", "none"]

/-- The command-line arguments of `parse_args`. -/
structure CliArgs where
  input : String
  output : String
  engine : String
  languages : String
  rotation : String
deriving DecidableEq

/-- Source `parse_args`: `argparse` validates `choices=` itself and exits
with status 2 on a value outside the declared choices. -/
def parse_args (a : CliArgs) : Except Nat CliArgs :=
  if a.engine ∈ ENGINE_CHOICES then
    if a.rotation ∈ ROTATION_CHOICES then Except.ok a
    else Except.error 2
  else Except.error 2

/-- Source `main` up to the call of `run_pipeline`: argument parsing,
then the input-directory check (`sys.exit(1)`), then the
`OCREngineType(args.engine)` conversion whose `ValueError` handler also
exits with status 1.  `Except.ok` means the pipeline is reached. -/
def mainEntry (inputExists inputIsDir : Bool) (a : CliArgs) : Except Nat CliArgs :=
  match parse_args a with
  | Except.error code => Except.error code
  | Except.ok args =>
    if ¬ (inputExists = true) ∨ ¬ (inputIsDir = true) then Except.error 1
    else if args.engine ∈ ENGINE_CHOICES then Except.ok args
    else Except.error 1

/-- Decidable equality for `Except`, used to evaluate pipeline results on
concrete inputs. -/
instance {e a : Type} [DecidableEq e] [DecidableEq a] : DecidableEq (Except e a) := fun x y =>
  match x, y with
  | Except.error u, Except.error v =>
    if h : u = v then isTrue (congrArg Except.error h)
    else isFalse (fun hc => h (Except.error.inj hc))
  | Except.error _, Except.ok _ => isFalse (fun h => Except.noConfusion h)
  | Except.ok _, Except.error _ => isFalse (fun h => Except.noConfusion h)
  | Except.ok u, Except.ok v =>
    if h : u = v then isTrue (congrArg Except.ok h)
    else isFalse (fun hc => h (Except.ok.inj hc))

/-- Confidence the engine reports for a given rotation of an image. -/
def engConf (ctx : OCRContext) (img : Str) (rot : Nat) : ℚ :=
  (ctx.engineRun (ctx.preprocessForOcr img rot)).2

/-- Text the engine reports for a given rotation of an image. -/
def engText (ctx : OCRContext) (img : Str) (rot : Nat) : Str :=
  (ctx.engineRun (ctx.preprocessForOcr img rot)).1

/-- A pipeline environment in which every rotation yields a distinct text
and a distinct confidence, the best (0.9) at rotation 90. -/
def demoSelCtx : OCRContext :=
  { readImage := fun p => Except.ok p
    preprocessForOcr := fun img rot => img ++ (toString rot).data
    engineRun := fun s =>
      if s = "p0".data then ("t0".data, mkRat 2 10)
      else if s = "p90".data then ("t90".data, mkRat 9 10)
      else if s = "p180".data then ("t180".data, mkRat 5 10)
      else ("t270".data, mkRat 1 10) }

/-- A pipeline environment in which the engine reports the sentinel
confidence `-1` for every rotation, with distinct nonempty texts. -/
def allSentinelCtx : OCRContext :=
  { readImage := fun p => Except.ok p
    preprocessForOcr := fun img rot => img ++ (toString rot).data
    engineRun := fun s =>
      if s = "p0".data then ("a".data, -1)
      else if s = "p90".data then ("b".data, -1)
      else if s = "p180".data then ("c".data, -1)
      else ("d".data, -1) }

/-- A HEIC input file with stem `x` in subdirectory `a`. -/
def demoHeicA : SrcFile :=
  ⟨"in/a/x.heic".data, "x".data, ".heic".data, true, true, true⟩

/-- A distinct HEIC input file with the same stem `x` in subdirectory `b`. -/
def demoHeicB : SrcFile :=
  ⟨"in/b/x.heic".data, "x".data, ".heic".data, true, true, true⟩

/-- A JPEG input file `a.jpg`. -/
def demoImgA : SrcFile := ⟨"in/a.jpg".data, "a".data, ".jpg".data, true, true, true⟩

/-- A JPEG input file `b.jpg`. -/
def demoImgB : SrcFile := ⟨"in/b.jpg".data, "b".data, ".jpg".data, true, true, true⟩

/-- A HEIC input file whose conversion fails. -/
def failHeic : SrcFile := ⟨"in/z.heic".data, "z".data, ".heic".data, true, false, true⟩

/-- A pipeline environment in which reading `a.jpg` raises the
`read_image_bgr` RuntimeError and every other image reads fine; the
engine reports no confidence. -/
def failReadCtx : OCRContext :=
  { readImage := fun p =>
      if p = "a.jpg".data then Except.error "Failed to read image: a.jpg"
      else Except.ok p
    preprocessForOcr := fun img _ => img
    engineRun := fun _ => ([], -1) }

/-- The record list produced by running the demo pipeline on `b.jpg`. -/
def demoRecs : List Rec :=
  [[("manufacturer", []), ("model_number", []), ("serial_number", []),
    ("capacity", []), ("date_of_manufacture", []),
    ("source_file", "b.jpg".data), ("ocr_confidence", []),
    ("rotation_deg", "0".data)]]

/-- A record with one preferred key and one extra key. -/
def demoCsvRecords : List Rec :=
  [[("manufacturer", "Rheem".data), ("extra_key", "x".data)]]

/-- OCR text whose model-number capture is 121 characters long. -/
def overlongText : Str := "model ".data ++ List.replicate 119 'a' ++ ".b".data

/-- Totality of the file ordering used by the sorted traversal. -/
instance : IsTotal SrcFile (fun a b => a.path ≤ b.path) :=
  ⟨fun a b => le_total a.path b.path⟩

/-- Transitivity of the file ordering used by the sorted traversal. -/
instance : IsTrans SrcFile (fun a b => a.path ≤ b.path) :=
  ⟨fun _ _ _ h1 h2 => le_trans h1 h2⟩

/-! ## Theorems -/

/-- Unfolding equation of `ocrStep` in terms of the projections. -/
theorem ocrStep_eq (ctx : OCRContext) (img : Str) (best : Str × ℚ × Nat) (rot : Nat) :
    ocrStep ctx img best rot =
      if best.2.1 < engConf ctx img rot then (engText ctx img rot, engConf ctx img rot, rot)
      else best := rfl

/-- The selection fold leaves the best untouched when no rotation beats it. -/
theorem ocrFold_no_improve (ctx : OCRContext) (img : Str) (l : List Nat)
    (b : Str × ℚ × Nat) (h : ∀ rot ∈ l, engConf ctx img rot ≤ b.2.1) :
    l.foldl (ocrStep ctx img) b = b := by
  induction l with
  | nil => rfl
  | cons r l ih =>
    have hr : engConf ctx img r ≤ b.2.1 := h r (List.mem_cons_self r l)
    have hstep : ocrStep ctx img b r = b := by
      rw [ocrStep_eq, if_neg (not_lt.mpr hr)]
    simp only [List.foldl_cons, hstep]
    exact ih (fun rot hm => h rot (List.mem_cons_of_mem r hm))

/-- The selection fold returns the earliest strict maximum among the
rotations, provided that maximum beats the incoming best. -/
theorem ocrFold_selects (ctx : OCRContext) (img : Str) (l : List Nat)
    (b : Str × ℚ × Nat) (i : Nat) (hi : i < l.length)
    (hmax : ∀ j, j < l.length → engConf ctx img (l.getD j 0) ≤ engConf ctx img (l.getD i 0))
    (hfirst : ∀ j, j < i → engConf ctx img (l.getD j 0) < engConf ctx img (l.getD i 0))
    (hb : b.2.1 < engConf ctx img (l.getD i 0)) :
    l.foldl (ocrStep ctx img) b =
      (engText ctx img (l.getD i 0), engConf ctx img (l.getD i 0), l.getD i 0) := by
  induction l generalizing b i with
  | nil => simp at hi
  | cons r l ih =>
    cases i with
    | zero =>
      simp only [List.getD_cons_zero] at hmax hb ⊢
      have hstep : ocrStep ctx img b r =
          (engText ctx img r, engConf ctx img r, r) := by
        rw [ocrStep_eq, if_pos hb]
      simp only [List.foldl_cons, hstep]
      apply ocrFold_no_improve
      intro rot hm
      obtain ⟨j, hj, rfl⟩ := List.mem_iff_getElem.mp hm
      have h2 := hmax (j + 1) (by simp; omega)
      rw [List.getD_cons_succ, List.getD_eq_getElem l 0 hj] at h2
      exact h2
    | succ k =>
      have hk : k < l.length := by simpa using Nat.lt_of_succ_lt_succ hi
      simp only [List.getD_cons_succ] at hmax hfirst hb ⊢
      have h0 : engConf ctx img r < engConf ctx img (l.getD k 0) := by
        have := hfirst 0 (Nat.succ_pos k)
        simpa [List.getD_cons_zero] using this
      have hb2 : (ocrStep ctx img b r).2.1 < engConf ctx img (l.getD k 0) := by
        rw [ocrStep_eq]
        split
        · exact h0
        · exact hb
      simp only [List.foldl_cons]
      apply ih (ocrStep ctx img b r) k hk
      · intro j hj
        have := hmax (j + 1) (Nat.succ_lt_succ hj)
        simpa [List.getD_cons_succ] using this
      · intro j hj
        have := hfirst (j + 1) (Nat.succ_lt_succ hj)
        simpa [List.getD_cons_succ] using this
      · exact hb2

/-- Claim C1, amended: for the candidate rotations of the mode (0, 90,
180, 270 under `auto`; only 0 under `none`), evaluated in order, and
provided at least one attempt's confidence exceeds the initial sentinel
`-1`, the selector returns the text, confidence and rotation of the
attempt with the strictly greatest confidence, ties keeping the
earliest-tried rotation: position `i` here is any earliest maximum. -/
theorem choose_best_selects_earliest_max (ctx : OCRContext) (p img : Str)
    (mode : String) (hread : ctx.readImage p = Except.ok img)
    (i : Nat) (hi : i < (rotation_candidates mode).length)
    (hmax : ∀ j, j < (rotation_candidates mode).length →
      engConf ctx img ((rotation_candidates mode).getD j 0) ≤
        engConf ctx img ((rotation_candidates mode).getD i 0))
    (hfirst : ∀ j, j < i →
      engConf ctx img ((rotation_candidates mode).getD j 0) <
        engConf ctx img ((rotation_candidates mode).getD i 0))
    (hsent : -1 < engConf ctx img ((rotation_candidates mode).getD i 0)) :
    choose_best_ocr_result ctx [p] mode =
      Except.ok (engText ctx img ((rotation_candidates mode).getD i 0),
        engConf ctx img ((rotation_candidates mode).getD i 0),
        (rotation_candidates mode).getD i 0) := by
  unfold choose_best_ocr_result
  simp only [chooseBestAux, hread]
  rw [ocrFold_selects ctx img (rotation_candidates mode) ([], -1, 0) i hi hmax hfirst hsent]

/-- Claim C1 witness: confidences [0.2, 0.9, 0.5, 0.1] at rotations
[0, 90, 180, 270] make the selector return rotation 90 and its text. -/
theorem choose_best_selects_earliest_max_witness :
    choose_best_ocr_result demoSelCtx ["p".data] "auto" =
      Except.ok ("t90".data, mkRat 9 10, 90) := by
  rw [choose_best_selects_earliest_max demoSelCtx "p".data "p".data "auto" rfl 1 (by decide)
    (by decide) (by decide) (by decide)]
  decide

/-- Claim C1 counterexample: under mode `none` with a single attempt whose
confidence is the sentinel `-1` and whose text is `"a"`, the claim as
stated demands that attempt's text back, but the selector returns the
initial empty text. -/
theorem choose_best_claim_counterexample :
    choose_best_ocr_result allSentinelCtx ["p".data] "none" =
      Except.ok (([] : Str), -1, 0) ∧ (([] : Str) ≠ "a".data) := by
  decide

/-- Claim C2, amended: when every rotation attempt reports the sentinel
confidence `-1`, the selector returns the initial sentinel triple — empty
text, confidence `-1`, rotation 0 — and in particular not the text of the
last-evaluated rotation. -/
theorem choose_best_all_sentinel (ctx : OCRContext) (p img : Str) (mode : String)
    (hread : ctx.readImage p = Except.ok img)
    (hall : ∀ rot ∈ rotation_candidates mode, engConf ctx img rot = -1) :
    choose_best_ocr_result ctx [p] mode = Except.ok (([] : Str), -1, 0) := by
  unfold choose_best_ocr_result
  simp only [chooseBestAux, hread]
  rw [ocrFold_no_improve]
  intro rot hm
  rw [hall rot hm]

/-- Claim C2 witness: all four `auto` rotations report `-1`, and the
selector returns the sentinel triple. -/
theorem choose_best_all_sentinel_witness :
    choose_best_ocr_result allSentinelCtx ["p".data] "auto" =
      Except.ok (([] : Str), -1, 0) :=
  choose_best_all_sentinel allSentinelCtx "p".data "p".data "auto" rfl (by decide)

/-- Claim C2 counterexample: all four rotations report the sentinel and
carry distinct texts "a", "b", "c", "d"; the selector returns the empty
initial text, not the text "d" of the last-evaluated rotation. -/
theorem choose_best_all_sentinel_counterexample :
    choose_best_ocr_result allSentinelCtx ["p".data] "auto" =
      Except.ok (([] : Str), -1, 0) ∧ (([] : Str) ≠ "d".data) := by
  decide

/-- Claim C8: normalizing the same HEIC file twice is idempotent — the
first run performs the conversion once and stages the stem-keyed PNG; the
second run finds that PNG already existing, performs no conversion, and
returns the same converted path. -/
theorem heic_normalize_idempotent (f : SrcFile) (st0 : List Str)
    (hfile : f.isFile = true)
    (hsuf : lowerStr f.suffix = ".heic".data ∨ lowerStr f.suffix = ".heif".data)
    (hok : f.convertOk = true)
    (hnew : f.stem ++ ".png".data ∉ st0) :
    (prepare_images [f] st0).conversions = [f.path] ∧
    (prepare_images [f] st0).ready = [f.stem ++ ".png".data] ∧
    (prepare_images [f] (prepare_images [f] st0).existing).conversions = [] ∧
    (prepare_images [f] (prepare_images [f] st0).existing).ready =
      [f.stem ++ ".png".data] := by
  have himg : is_image_file f = true := by
    unfold is_image_file
    rcases hsuf with h | h <;> rw [h] <;> decide
  have hout : outName f = f.stem ++ ".png".data := by
    unfold outName
    rw [if_pos hsuf]
  have hstep1 : prepStep ⟨[], st0, []⟩ f =
      ⟨[f.stem ++ ".png".data], st0 ++ [f.stem ++ ".png".data], [f.path]⟩ := by
    unfold prepStep
    rw [if_neg (by simp [hfile, himg]), if_pos hsuf, hout, if_neg hnew, if_pos hok]
    simp
  have e1 : prepare_images [f] st0 =
      ⟨[f.stem ++ ".png".data], st0 ++ [f.stem ++ ".png".data], [f.path]⟩ := by
    show (sortFiles [f]).foldl prepStep ⟨[], st0, []⟩ = _
    rw [show sortFiles [f] = [f] from rfl]
    simpa using hstep1
  have hmem : f.stem ++ ".png".data ∈ st0 ++ [f.stem ++ ".png".data] := by simp
  have hstep2 : prepStep ⟨[], st0 ++ [f.stem ++ ".png".data], []⟩ f =
      ⟨[f.stem ++ ".png".data], st0 ++ [f.stem ++ ".png".data], []⟩ := by
    unfold prepStep
    rw [if_neg (by simp [hfile, himg]), if_pos hsuf, hout, if_pos hmem]
    simp
  have e2 : prepare_images [f] (st0 ++ [f.stem ++ ".png".data]) =
      ⟨[f.stem ++ ".png".data], st0 ++ [f.stem ++ ".png".data], []⟩ := by
    show (sortFiles [f]).foldl prepStep ⟨[], st0 ++ [f.stem ++ ".png".data], []⟩ = _
    rw [show sortFiles [f] = [f] from rfl]
    simpa using hstep2
  rw [e1]
  exact ⟨rfl, rfl, by rw [e2], by rw [e2]⟩

/-- Claim C8 witness: preparing a fresh HEIC file twice converts exactly
once and yields the same stem-keyed path both times. -/
theorem heic_normalize_idempotent_witness :
    (prepare_images [demoHeicA] []).conversions = ["in/a/x.heic".data] ∧
    (prepare_images [demoHeicA] []).ready = ["x.png".data] ∧
    (prepare_images [demoHeicA] (prepare_images [demoHeicA] []).existing).conversions
      = [] ∧
    (prepare_images [demoHeicA] (prepare_images [demoHeicA] []).existing).ready =
      ["x.png".data] :=
  heic_normalize_idempotent demoHeicA [] rfl (Or.inl (by decide)) rfl (by decide)

/-- Claim C10: two distinct HEIC inputs with equal stems map to the same
converted PNG path; only the first-visited file is converted, and the
shared path appears twice in the ready list — the second file's content
is never converted. -/
theorem heic_same_stem_second_never_converted (f1 f2 : SrcFile) (st0 : List Str)
    (h1file : f1.isFile = true) (h2file : f2.isFile = true)
    (h1suf : lowerStr f1.suffix = ".heic".data ∨ lowerStr f1.suffix = ".heif".data)
    (h2suf : lowerStr f2.suffix = ".heic".data ∨ lowerStr f2.suffix = ".heif".data)
    (hstem : f2.stem = f1.stem) (hpath : f1.path ≠ f2.path)
    (hord : f1.path ≤ f2.path) (h1ok : f1.convertOk = true)
    (hnew : f1.stem ++ ".png".data ∉ st0) :
    (prepare_images [f1, f2] st0).ready =
      [f1.stem ++ ".png".data, f1.stem ++ ".png".data] ∧
    (prepare_images [f1, f2] st0).conversions = [f1.path] := by
  have h1img : is_image_file f1 = true := by
    unfold is_image_file
    rcases h1suf with h | h <;> rw [h] <;> decide
  have h2img : is_image_file f2 = true := by
    unfold is_image_file
    rcases h2suf with h | h <;> rw [h] <;> decide
  have hout1 : outName f1 = f1.stem ++ ".png".data := by
    unfold outName
    rw [if_pos h1suf]
  have hout2 : outName f2 = f1.stem ++ ".png".data := by
    unfold outName
    rw [if_pos h2suf, hstem]
  have hsorted : sortFiles [f1, f2] = [f1, f2] := by
    unfold sortFiles
    simp [List.insertionSort, List.orderedInsert, hord]
  have hstep1 : prepStep ⟨[], st0, []⟩ f1 =
      ⟨[f1.stem ++ ".png".data], st0 ++ [f1.stem ++ ".png".data], [f1.path]⟩ := by
    unfold prepStep
    rw [if_neg (by simp [h1file, h1img]), if_pos h1suf, hout1, if_neg hnew, if_pos h1ok]
    simp
  have hmem : f1.stem ++ ".png".data ∈ st0 ++ [f1.stem ++ ".png".data] := by simp
  have hstep2 : prepStep
      ⟨[f1.stem ++ ".png".data], st0 ++ [f1.stem ++ ".png".data], [f1.path]⟩ f2 =
      ⟨[f1.stem ++ ".png".data, f1.stem ++ ".png".data],
        st0 ++ [f1.stem ++ ".png".data], [f1.path]⟩ := by
    unfold prepStep
    rw [if_neg (by simp [h2file, h2img]), if_pos h2suf, hout2, if_pos hmem]
    simp
  have e : prepare_images [f1, f2] st0 =
      ⟨[f1.stem ++ ".png".data, f1.stem ++ ".png".data],
        st0 ++ [f1.stem ++ ".png".data], [f1.path]⟩ := by
    show (sortFiles [f1, f2]).foldl prepStep ⟨[], st0, []⟩ = _
    rw [hsorted]
    simp only [List.foldl_cons, List.foldl_nil, hstep1, hstep2]
  rw [e]
  exact ⟨rfl, rfl⟩

/-- Claim C10 witness: the two same-stem demo files yield the shared
converted path twice while only the first is converted. -/
theorem heic_same_stem_second_never_converted_witness :
    (prepare_images [demoHeicA, demoHeicB] []).ready = ["x.png".data, "x.png".data] ∧
    (prepare_images [demoHeicA, demoHeicB] []).conversions = ["in/a/x.heic".data] :=
  heic_same_stem_second_never_converted demoHeicA demoHeicB [] rfl rfl
    (Or.inl (by decide)) (Or.inl (by decide)) rfl (by decide) (by decide) rfl (by decide)

/-- Claim C9, amended: the program exits with status 1 when the input
path is missing or not a directory (under valid choice arguments), but an
engine choice outside the two valid options is rejected by `argparse`
itself with exit status 2 — the status-1 handler for an invalid engine is
unreachable from the command line. -/
theorem main_exit_codes (inputExists inputIsDir : Bool) (a : CliArgs) :
    (a.engine ∉ ENGINE_CHOICES →
      mainEntry inputExists inputIsDir a = Except.error 2) ∧
    (a.engine ∈ ENGINE_CHOICES → a.rotation ∈ ROTATION_CHOICES →
      (inputExists = false ∨ inputIsDir = false) →
      mainEntry inputExists inputIsDir a = Except.error 1) := by
  constructor
  · intro h
    simp [mainEntry, parse_args, h]
  · intro he hr hin
    rcases hin with h | h <;> simp [mainEntry, parse_args, he, hr, h]

/-- Claim C9 witness: a missing input directory exits with status 1; a
bogus engine name exits with status 2. -/
theorem main_exit_codes_witness :
    mainEntry true true ⟨"in", "out", "bogus", "en", "auto"⟩ = Except.error 2 ∧
    mainEntry false true ⟨"in", "out", "easyocr", "en", "auto"⟩ = Except.error 1 :=
  ⟨(main_exit_codes true true ⟨"in", "out", "bogus", "en", "auto"⟩).1 (by decide),
   (main_exit_codes false true ⟨"in", "out", "easyocr", "en", "auto"⟩).2
     (by decide) (by decide) (Or.inl rfl)⟩

/-- Claim C9 counterexample: with an existing input directory and the
invalid engine name `easyocrX`, the program exits with status 2, not the
claimed status 1. -/
theorem main_invalid_engine_counterexample :
    mainEntry true true ⟨"in", "out", "easyocrX", "en", "auto"⟩ = Except.error 2 ∧
    (Except.error 2 ≠ (Except.error 1 : Except Nat CliArgs)) := by
  decide

/-- A successful `find?` finds the earliest element satisfying the
predicate: its index, the failure of all earlier indices. -/
theorem find?_eq_some_earliest {α : Type} (p : α → Bool) (d : α) :
    ∀ (l : List α) (b : α), l.find? p = some b →
      ∃ i, i < l.length ∧ l.getD i d = b ∧ p b = true ∧
        ∀ j, j < i → p (l.getD j d) = false := by
  intro l
  induction l with
  | nil => intro b h; simp [List.find?] at h
  | cons a l ih =>
    intro b h
    cases hpa : p a with
    | true =>
      rw [List.find?_cons_of_pos _ hpa] at h
      injection h with h
      subst h
      exact ⟨0, by simp, by simp, hpa, fun j hj => absurd hj (Nat.not_lt_zero j)⟩
    | false =>
      rw [List.find?_cons_of_neg _ (by simp [hpa])] at h
      obtain ⟨i, hi, hget, hpb, hearly⟩ := ih b h
      refine ⟨i + 1, by simpa using Nat.succ_lt_succ hi, by simpa using hget, hpb, ?_⟩
      intro j hj
      cases j with
      | zero => simpa using hpa
      | succ j => simpa using hearly j (Nat.lt_of_succ_lt_succ hj)

/-- Claim C4: if any manufacturer keyword occurs (case-insensitively) in
the text the Field Extractor scans, the manufacturer field is the first
listed keyword that occurs, re-title-cased word by word. -/
theorem manufacturer_first_keyword (t k : Str)
    (hk : k ∈ MANUFACTURER_KEYWORDS)
    (hin : strContains (lowerStr (normalize_whitespace t)) k = true) :
    ∃ i, i < MANUFACTURER_KEYWORDS.length ∧
      strContains (lowerStr (normalize_whitespace t))
        (MANUFACTURER_KEYWORDS.getD i []) = true ∧
      (∀ j, j < i → strContains (lowerStr (normalize_whitespace t))
        (MANUFACTURER_KEYWORDS.getD j []) = false) ∧
      (parse_fields t).lookup "manufacturer" =
        some (joinSpace ((splitWsWords (MANUFACTURER_KEYWORDS.getD i [])).map
          capitalizeWord)) := by
  have hsome : (MANUFACTURER_KEYWORDS.find?
      (fun brand => strContains (lowerStr (normalize_whitespace t)) brand)).isSome := by
    rw [List.find?_isSome]
    exact ⟨k, hk, hin⟩
  obtain ⟨b, hfind⟩ := Option.isSome_iff_exists.mp hsome
  obtain ⟨i, hi, hget, hpb, hearly⟩ := find?_eq_some_earliest _ [] _ b hfind
  have hbmem : b ∈ MANUFACTURER_KEYWORDS := List.mem_of_find?_eq_some hfind
  have hclean : ∀ x ∈ MANUFACTURER_KEYWORDS,
      post_clean (some (joinSpace ((splitWsWords x).map capitalizeWord))) =
        joinSpace ((splitWsWords x).map capitalizeWord) := by decide
  refine ⟨i, hi, by rw [hget]; exact hpb, hearly, ?_⟩
  have hlook : (parse_fields t).lookup "manufacturer" =
      some (post_clean (detect_manufacturer (normalize_whitespace t))) := rfl
  rw [hlook]
  unfold detect_manufacturer
  rw [hfind, Option.map_some', hget, hclean b hbmem]

/-- Claim C4 witness: in `"Mfr: RHEEM 50 gal"` the keyword `rheem` is
found first and the field is `Rheem`. -/
theorem manufacturer_first_keyword_witness :
    ∃ i, i < MANUFACTURER_KEYWORDS.length ∧
      strContains (lowerStr (normalize_whitespace "Mfr: RHEEM 50 gal".data))
        (MANUFACTURER_KEYWORDS.getD i []) = true ∧
      (∀ j, j < i → strContains (lowerStr (normalize_whitespace "Mfr: RHEEM 50 gal".data))
        (MANUFACTURER_KEYWORDS.getD j []) = false) ∧
      (parse_fields "Mfr: RHEEM 50 gal".data).lookup "manufacturer" =
        some (joinSpace ((splitWsWords (MANUFACTURER_KEYWORDS.getD i [])).map
          capitalizeWord)) :=
  manufacturer_first_keyword "Mfr: RHEEM 50 gal".data "rheem".data (by decide) (by decide)

/-- A cleaned value never exceeds 120 characters. -/
theorem post_clean_length (v : Option Str) : (post_clean v).length ≤ 120 := by
  unfold post_clean
  cases v with
  | none => simp
  | some s =>
    by_cases he : s.isEmpty
    · simp [he]
    · by_cases h : 120 < (stripChars (stripWs s) isPunctStrip).length
      · simp only [he, Bool.false_eq_true, if_false, h, if_true, List.length_take]
        omega
      · simp only [he, Bool.false_eq_true, if_false, h, if_false]
        omega

/-- A `findSome?` over a list on which the function is everywhere `none`
returns `none`. -/
theorem findSome?_none {α β : Type} (f : α → Option β) :
    ∀ l : List α, (∀ x ∈ l, f x = none) → l.findSome? f = none
  | [], _ => rfl
  | a :: l, h => by
    have ih := findSome?_none f l (fun x hx => h x (List.mem_cons_of_mem a hx))
    unfold List.findSome?
    rw [h a (List.mem_cons_self a l)]
    exact ih

/-- When every pattern of a hint list fails to match, `find_first_group`
returns `none`. -/
theorem find_first_group_none (patterns : List RE) (text : Str)
    (h : ∀ pat ∈ patterns, reSearch pat text = none) :
    find_first_group patterns text = none := by
  unfold find_first_group
  apply findSome?_none
  intro pat hp
  simp only [h pat hp]

/-- When both capacity patterns fail to match, `parse_capacity` returns
`none`. -/
theorem parse_capacity_none (text : Str)
    (h : ∀ pat ∈ CAPACITY_HINTS, reSearch pat text = none) :
    parse_capacity text = none := by
  unfold parse_capacity
  apply findSome?_none
  intro pat hp
  simp only [h pat hp]

/-- When the labelled date pattern fails and no generic date candidate
parses, `parse_date_of_manufacture` returns `none`. -/
theorem parse_date_of_manufacture_none (text : Str)
    (hl : ∀ pat ∈ DATE_HINTS, reSearch pat text = none)
    (h1 : ∀ cand ∈ findallG1 genericDatePat1 none text, fuzzyDateISO cand = none)
    (h2 : ∀ cand ∈ findallG1 genericDatePat2 none text, fuzzyDateISO cand = none) :
    parse_date_of_manufacture text = none := by
  unfold parse_date_of_manufacture
  rw [find_first_group_none DATE_HINTS text hl]
  apply findSome?_none
  intro cand hc
  rcases List.mem_append.mp (by simpa using hc) with h | h
  · exact h1 cand h
  · exact h2 cand h

/-- Claim C5, amended: field extraction is total and returns exactly the
five keys in order; every value is at most 120 characters; and a field
whose heuristics all miss is the empty string — no matching manufacturer
keyword, no matching model, serial or capacity pattern, and no date
label or parsing date candidate each yield an empty field.  (The cleanup
trims before truncating, so a truncated value can still end in
punctuation — see the counterexample.) -/
theorem parse_fields_shape (t : Str) :
    (parse_fields t).map Prod.fst =
      ["manufacturer", "model_number", "serial_number", "capacity",
       "date_of_manufacture"] ∧
    (∀ kv ∈ parse_fields t, kv.2.length ≤ 120) ∧
    ((∀ b ∈ MANUFACTURER_KEYWORDS,
        strContains (lowerStr (normalize_whitespace t)) b = false) →
      (parse_fields t).lookup "manufacturer" = some []) ∧
    ((∀ pat ∈ MODEL_HINTS, reSearch pat (normalize_whitespace t) = none) →
      (parse_fields t).lookup "model_number" = some []) ∧
    ((∀ pat ∈ SERIAL_HINTS, reSearch pat (normalize_whitespace t) = none) →
      (parse_fields t).lookup "serial_number" = some []) ∧
    ((∀ pat ∈ CAPACITY_HINTS, reSearch pat (normalize_whitespace t) = none) →
      (parse_fields t).lookup "capacity" = some []) ∧
    ((∀ pat ∈ DATE_HINTS, reSearch pat (normalize_whitespace t) = none) →
      (∀ cand ∈ findallG1 genericDatePat1 none (normalize_whitespace t),
        fuzzyDateISO cand = none) →
      (∀ cand ∈ findallG1 genericDatePat2 none (normalize_whitespace t),
        fuzzyDateISO cand = none) →
      (parse_fields t).lookup "date_of_manufacture" = some []) := by
  refine ⟨rfl, ?_, ?_, ?_, ?_, ?_, ?_⟩
  · intro kv hkv
    simp only [parse_fields, List.mem_cons, List.not_mem_nil, or_false] at hkv
    rcases hkv with h | h | h | h | h <;> rw [h] <;> exact post_clean_length _
  · intro hnone
    have hfind : (MANUFACTURER_KEYWORDS.find?
        (fun brand => strContains (lowerStr (normalize_whitespace t)) brand)) = none := by
      rw [List.find?_eq_none]
      intro x hx
      simp [hnone x hx]
    have hlook : (parse_fields t).lookup "manufacturer" =
        some (post_clean (detect_manufacturer (normalize_whitespace t))) := rfl
    rw [hlook]
    unfold detect_manufacturer
    rw [hfind]
    rfl
  · intro hm
    have hlook : (parse_fields t).lookup "model_number" =
        some (post_clean (find_first_group MODEL_HINTS (normalize_whitespace t))) := rfl
    rw [hlook, find_first_group_none MODEL_HINTS (normalize_whitespace t) hm]
    rfl
  · intro hs
    have hlook : (parse_fields t).lookup "serial_number" =
        some (post_clean (find_first_group SERIAL_HINTS (normalize_whitespace t))) := rfl
    rw [hlook, find_first_group_none SERIAL_HINTS (normalize_whitespace t) hs]
    rfl
  · intro hc
    have hlook : (parse_fields t).lookup "capacity" =
        some (post_clean (parse_capacity (normalize_whitespace t))) := rfl
    rw [hlook, parse_capacity_none (normalize_whitespace t) hc]
    rfl
  · intro hl h1 h2
    have hlook : (parse_fields t).lookup "date_of_manufacture" =
        some (post_clean (parse_date_of_manufacture (normalize_whitespace t))) := rfl
    rw [hlook, parse_date_of_manufacture_none (normalize_whitespace t) hl h1 h2]
    rfl

/-- Claim C5 witness: on a text missing every heuristic the shape holds
and all five fields are empty. -/
theorem parse_fields_shape_witness :
    (parse_fields "xy".data).map Prod.fst =
      ["manufacturer", "model_number", "serial_number", "capacity",
       "date_of_manufacture"] ∧
    (parse_fields "xy".data).lookup "manufacturer" = some [] ∧
    (parse_fields "xy".data).lookup "model_number" = some [] ∧
    (parse_fields "xy".data).lookup "serial_number" = some [] ∧
    (parse_fields "xy".data).lookup "capacity" = some [] ∧
    (parse_fields "xy".data).lookup "date_of_manufacture" = some [] :=
  ⟨(parse_fields_shape "xy".data).1,
   (parse_fields_shape "xy".data).2.2.1 (by decide),
   (parse_fields_shape "xy".data).2.2.2.1 (by decide),
   (parse_fields_shape "xy".data).2.2.2.2.1 (by decide),
   (parse_fields_shape "xy".data).2.2.2.2.2.1 (by decide),
   (parse_fields_shape "xy".data).2.2.2.2.2.2 (by decide) (by decide) (by decide)⟩

/-- Claim C5 counterexample: on `overlongText` the extracted model number
is truncated to 120 characters and ends in `.` — a character of the trim
set — so the returned value is not trimmed of surrounding punctuation:
stripping it again changes it. -/
theorem parse_fields_not_trimmed_counterexample :
    (((parse_fields overlongText).lookup "model_number").getD []).length = 120 ∧
    (((parse_fields overlongText).lookup "model_number").getD []).getLast? =
      some '.' ∧
    stripChars (((parse_fields overlongText).lookup "model_number").getD [])
        isPunctStrip ≠
      ((parse_fields overlongText).lookup "model_number").getD [] := by
  decide

/-- Claim C3, amended: a failed HEIC conversion and a failed copy during
image preparation are caught and the file is skipped, preparation
continuing identically on all other files; but an image that fails to
read during OCR raises an error that no handler in the processing loop
catches, aborting the remainder of the run. -/
theorem per_file_errors_skip_in_prep_but_abort_in_ocr :
    (∀ (st : PrepSt) (l1 l2 : List SrcFile) (b : SrcFile),
      b.isFile = true →
      (lowerStr b.suffix = ".heic".data ∨ lowerStr b.suffix = ".heif".data) →
      b.convertOk = false →
      outName b ∉ (l1.foldl prepStep st).existing →
      (l1 ++ b :: l2).foldl prepStep st = (l1 ++ l2).foldl prepStep st) ∧
    (∀ (st : PrepSt) (l1 l2 : List SrcFile) (b : SrcFile),
      b.isFile = true → is_image_file b = true →
      ¬ (lowerStr b.suffix = ".heic".data ∨ lowerStr b.suffix = ".heif".data) →
      b.copyOk = false →
      outName b ∉ (l1.foldl prepStep st).existing →
      (l1 ++ b :: l2).foldl prepStep st = (l1 ++ l2).foldl prepStep st) ∧
    (∀ (ctx : OCRContext) (mode : String) (p : Str) (rest : List Str)
      (acc : List Rec) (e : String),
      ctx.readImage p = Except.error e →
      processImages ctx mode (p :: rest) acc = Except.error e) := by
  have step_conv : ∀ (s : PrepSt) (b : SrcFile), b.isFile = true →
      (lowerStr b.suffix = ".heic".data ∨ lowerStr b.suffix = ".heif".data) →
      b.convertOk = false → outName b ∉ s.existing → prepStep s b = s := by
    intro s b hfile hsuf hfail hnot
    have himg : is_image_file b = true := by
      unfold is_image_file
      rcases hsuf with h | h <;> rw [h] <;> decide
    unfold prepStep
    rw [if_neg (by simp [hfile, himg]), if_pos hsuf, if_neg hnot,
      if_neg (by simp [hfail])]
  have step_copy : ∀ (s : PrepSt) (b : SrcFile), b.isFile = true →
      is_image_file b = true →
      ¬ (lowerStr b.suffix = ".heic".data ∨ lowerStr b.suffix = ".heif".data) →
      b.copyOk = false → outName b ∉ s.existing → prepStep s b = s := by
    intro s b hfile himg hsuf hfail hnot
    unfold prepStep
    rw [if_neg (by simp [hfile, himg]), if_neg hsuf, if_neg hnot,
      if_neg (by simp [hfail])]
  refine ⟨?_, ?_, ?_⟩
  · intro st l1 l2 b hfile hsuf hfail hnot
    rw [List.foldl_append, List.foldl_append, List.foldl_cons,
      step_conv _ b hfile hsuf hfail hnot]
  · intro st l1 l2 b hfile himg hsuf hfail hnot
    rw [List.foldl_append, List.foldl_append, List.foldl_cons,
      step_copy _ b hfile himg hsuf hfail hnot]
  · intro ctx mode p rest acc e hread
    unfold processImages choose_best_ocr_result chooseBestAux
    rw [hread]

/-- Claim C3 witness: a HEIC file with a failing conversion is skipped
with preparation continuing, while a failing image read aborts
processing. -/
theorem per_file_errors_skip_witness :
    ([failHeic, demoImgB] : List SrcFile).foldl prepStep ⟨[], [], []⟩ =
      ([demoImgB] : List SrcFile).foldl prepStep ⟨[], [], []⟩ ∧
    processImages failReadCtx "none" ["a.jpg".data] [] =
      Except.error "Failed to read image: a.jpg" :=
  ⟨per_file_errors_skip_in_prep_but_abort_in_ocr.1 ⟨[], [], []⟩ [] [demoImgB] failHeic
      rfl (Or.inl (by decide)) rfl (by decide),
   per_file_errors_skip_in_prep_but_abort_in_ocr.2.2 failReadCtx "none" "a.jpg".data []
      [] "Failed to read image: a.jpg" (by decide)⟩

/-- Claim C3 counterexample: with two prepared images of which the first
is unreadable, the run aborts with the read error — it does not continue
with the remaining file, although that file on its own processes fine. -/
theorem run_pipeline_abort_counterexample :
    run_pipeline failReadCtx [demoImgA, demoImgB] [] "none" =
      Except.error "Failed to read image: a.jpg" ∧
    (run_pipeline failReadCtx [demoImgB] [] "none").isOk = true := by
  decide

/-- Each `prepare_images` iteration appends either nothing or exactly the
staged name of the visited file. -/
theorem prepStep_ready (st : PrepSt) (f : SrcFile) :
    (prepStep st f).ready = st.ready ∨
    (prepStep st f).ready = st.ready ++ [outName f] := by
  unfold prepStep
  repeat' split
  all_goals first
    | exact Or.inl rfl
    | exact Or.inr rfl

/-- The ready list of a `prepare_images` fold is, in order, the staged
names of a subsequence of the visited files. -/
theorem foldl_prepStep_ready (l : List SrcFile) :
    ∀ st : PrepSt, ∃ sub : List SrcFile, sub.Sublist l ∧
      (l.foldl prepStep st).ready = st.ready ++ sub.map outName := by
  induction l with
  | nil => intro st; exact ⟨[], List.Sublist.refl _, by simp⟩
  | cons f l ih =>
    intro st
    obtain ⟨sub, hs, he⟩ := ih (prepStep st f)
    rcases prepStep_ready st f with h | h
    · exact ⟨sub, List.Sublist.cons f hs, by simp only [List.foldl_cons, he, h]⟩
    · refine ⟨f :: sub, List.Sublist.cons₂ f hs, ?_⟩
      simp only [List.foldl_cons, he, h, List.map_cons]
      simp
  
/-- The record built for an image carries that image's path under
`source_file`. -/
theorem buildRecord_source (p text : Str) (conf : ℚ) (rot : Nat) :
    (buildRecord p text conf rot).lookup "source_file" = some p := rfl

/-- A successful processing loop appends exactly one record per ready
image, in order, each carrying its image's path. -/
theorem processImages_ok (ctx : OCRContext) (mode : String) :
    ∀ (ready : List Str) (acc recs : List Rec),
      processImages ctx mode ready acc = Except.ok recs →
      ∃ tail : List Rec, recs = acc ++ tail ∧ tail.length = ready.length ∧
        ∀ i, i < ready.length →
          (tail.getD i []).lookup "source_file" = some (ready.getD i []) := by
  intro ready
  induction ready with
  | nil =>
    intro acc recs h
    simp only [processImages] at h
    injection h with h
    exact ⟨[], by simp [h], by simp, fun i hi => absurd hi (Nat.not_lt_zero i)⟩
  | cons p rest ih =>
    intro acc recs h
    rcases hc : choose_best_ocr_result ctx [p] mode with e | val
    · rw [processImages, hc] at h
      exact absurd h (by simp)
    · obtain ⟨text, conf, rot⟩ := val
      rw [processImages, hc] at h
      obtain ⟨tail, h1, h2, h3⟩ := ih _ _ h
      refine ⟨buildRecord p text conf rot :: tail, by simpa using h1, by simp [h2], ?_⟩
      intro i hi
      cases i with
      | zero => simpa using buildRecord_source p text conf rot
      | succ i => simpa using h3 i (by simpa using Nat.lt_of_succ_lt_succ hi)

/-- Claim C7: a successful run produces exactly one record per prepared
image; record `i` carries the path of prepared image `i`; the prepared
images are, in order, the staged names of a subsequence of the sorted
input files; and the traversal order is sorted by path. -/
theorem one_record_per_image_in_sorted_order (ctx : OCRContext) (files : List SrcFile)
    (existing0 : List Str) (mode : String) (recs : List Rec)
    (h : run_pipeline ctx files existing0 mode = Except.ok recs) :
    recs.length = (prepare_images files existing0).ready.length ∧
    (∀ i, i < recs.length →
      (recs.getD i []).lookup "source_file" =
        some ((prepare_images files existing0).ready.getD i [])) ∧
    (∃ sub : List SrcFile, sub.Sublist (sortFiles files) ∧
      (prepare_images files existing0).ready = sub.map outName) ∧
    List.Pairwise (fun a b : SrcFile => a.path ≤ b.path) (sortFiles files) := by
  obtain ⟨tail, h1, h2, h3⟩ := processImages_ok ctx mode _ [] recs h
  have htail : recs = tail := by simpa using h1
  subst htail
  refine ⟨h2, fun i hi => h3 i (by omega), ?_, ?_⟩
  · obtain ⟨sub, hs, he⟩ := foldl_prepStep_ready (sortFiles files) ⟨[], existing0, []⟩
    exact ⟨sub, hs, by simpa using he⟩
  · exact List.sorted_insertionSort _ files

/-- Claim C7 witness: the demo run on one image yields exactly one
record. -/
theorem one_record_per_image_witness :
    demoRecs.length = (prepare_images [demoImgB] []).ready.length :=
  (one_record_per_image_in_sorted_order failReadCtx [demoImgB] [] "none" demoRecs
    (by decide)).1

/-- Folding the keys of one record into the field list only appends. -/
theorem addKeys_extends (rec : Rec) : ∀ fs : List String,
    ∃ e, rec.foldl (fun fs kv => if kv.1 ∈ fs then fs else fs ++ [kv.1]) fs =
      fs ++ e := by
  induction rec with
  | nil => intro fs; exact ⟨[], by simp⟩
  | cons kv rec ih =>
    intro fs
    by_cases h : kv.1 ∈ fs
    · obtain ⟨e, he⟩ := ih fs
      exact ⟨e, by simp [List.foldl_cons, h, he]⟩
    · obtain ⟨e, he⟩ := ih (fs ++ [kv.1])
      exact ⟨kv.1 :: e, by simp [List.foldl_cons, h, he]⟩

/-- Folding the keys of all records into the field list only appends. -/
theorem csvFold_extends (records : List Rec) : ∀ fs : List String,
    ∃ e, records.foldl (fun fields rec =>
      rec.foldl (fun fs kv => if kv.1 ∈ fs then fs else fs ++ [kv.1]) fields) fs =
      fs ++ e := by
  induction records with
  | nil => intro fs; exact ⟨[], by simp⟩
  | cons rec records ih =>
    intro fs
    obtain ⟨e1, he1⟩ := addKeys_extends rec fs
    obtain ⟨e2, he2⟩ := ih (fs ++ e1)
    exact ⟨e1 ++ e2, by simp [List.foldl_cons, he1, he2]⟩

/-- After folding a record's keys into the field list, each of its keys
is present. -/
theorem addKeys_mem_self (rec : Rec) : ∀ (fs : List String) (kv : String × Str),
    kv ∈ rec →
    kv.1 ∈ rec.foldl (fun fs kv => if kv.1 ∈ fs then fs else fs ++ [kv.1]) fs := by
  induction rec with
  | nil => intro fs kv h; simp at h
  | cons a rec ih =>
    intro fs kv h
    rcases List.mem_cons.mp h with h | h
    · subst h
      obtain ⟨e, he⟩ :=
        addKeys_extends rec (if kv.1 ∈ fs then fs else fs ++ [kv.1])
      rw [List.foldl_cons, he]
      by_cases hm : kv.1 ∈ fs
      · rw [if_pos hm]
        exact List.mem_append_left _ hm
      · rw [if_neg hm]
        simp
    · exact ih _ kv h

/-- Every key of every record ends up in the inferred field list. -/
theorem csvFold_mem (records : List Rec) :
    ∀ (fs : List String) (rec : Rec), rec ∈ records → ∀ kv ∈ rec,
      kv.1 ∈ records.foldl (fun fields rec =>
        rec.foldl (fun fs kv => if kv.1 ∈ fs then fs else fs ++ [kv.1]) fields) fs := by
  induction records with
  | nil => intro fs rec h; simp at h
  | cons r records ih =>
    intro fs rec hrec kv hkv
    rcases List.mem_cons.mp hrec with h | h
    · subst h
      rw [List.foldl_cons]
      obtain ⟨e, he⟩ := csvFold_extends records
        (rec.foldl (fun fs kv => if kv.1 ∈ fs then fs else fs ++ [kv.1]) fs)
      rw [he]
      exact List.mem_append_left _ (addKeys_mem_self rec fs kv hkv)
    · rw [List.foldl_cons]
      exact ih _ rec h kv hkv

/-- Claim C6: the CSV header starts with the eight preferred columns in
their fixed order, any further key of any record appears in the header,
and the written table has one row per record, each row as wide as the
header. -/
theorem csv_schema_roundtrip (records : List Rec) :
    (write_csv_records records).1.take 8 = preferredFieldnames ∧
    (write_csv_records records).2.length = records.length ∧
    (∀ rec ∈ records, ∀ kv ∈ rec, kv.1 ∈ (write_csv_records records).1) ∧
    (∀ row ∈ (write_csv_records records).2,
      row.length = (write_csv_records records).1.length) := by
  refine ⟨?_, by simp [write_csv_records], ?_, ?_⟩
  · show (infer_fieldnames records).take 8 = preferredFieldnames
    obtain ⟨e, he⟩ := csvFold_extends records preferredFieldnames
    unfold infer_fieldnames
    rw [he, show (8 : Nat) = preferredFieldnames.length from rfl]
    exact List.take_left preferredFieldnames e
  · intro rec hrec kv hkv
    show kv.1 ∈ infer_fieldnames records
    unfold infer_fieldnames
    exact csvFold_mem records preferredFieldnames rec hrec kv hkv
  · intro row hrow
    simp only [write_csv_records, List.mem_map] at hrow
    obtain ⟨rec, _, hrec⟩ := hrow
    simp [write_csv_records, ← hrec]

/-- Claim C6 witness: the header of the demo record keeps the eight
preferred columns in front and contains the extra key. -/
theorem csv_schema_roundtrip_witness :
    (write_csv_records demoCsvRecords).1.take 8 = preferredFieldnames ∧
    "extra_key" ∈ (write_csv_records demoCsvRecords).1 :=
  ⟨(csv_schema_roundtrip demoCsvRecords).1,
   (csv_schema_roundtrip demoCsvRecords).2.2.1
     [("manufacturer", "Rheem".data), ("extra_key", "x".data)] (by decide)
     ("extra_key", "x".data) (by decide)⟩
